import Mathlib

/-!
Formalisation of the locale-aware content resolution and translation lookup
layer of the colliery.io static site.

The configuration constants (`collieryI18n`, `dataTranslations`,
`textTranslations`) are transcribed from the repository sources
(`astro.config.mjs` and `src/config/translationData.json.ts`).  The three
operations of the layer (`getLocaleFromUrl`, `getTranslatedData`,
`filterCollectionByLanguage`) live in `src/js/localeUtils.ts` and
`src/js/translationUtils.ts`, which are not part of the repository snapshot;
they are modelled from the specification (sections 4.1 to 4.3) and marked as
such in their doc comments.  Strings are handled through their underlying
character lists so that every operation evaluates on concrete inputs.
-/

universe u

namespace Colliery

/-- The i18n configuration shape of `astro.config.mjs`: the list of supported
locale codes together with the designated default locale. -/
structure I18nConfig where
  defaultLocale : String
  locales : List String
deriving DecidableEq, Repr

/-- The i18n block of `astro.config.mjs` (lines 32-38):
`defaultLocale: "en"`, `locales: ["en"]`. -/
def collieryI18n : I18nConfig :=
  { defaultLocale := "en", locales := ["en"] }

/-- The five JSON data modules imported by `src/config/translationData.json.ts`
(`siteData.json`, `navData.json`, `faqData.json`, `teamData.json`,
`testimonialData.json` of the `en` config directory); their contents are opaque
to the lookup layer. -/
inductive DataVal where
  | siteDataEn
  | navDataEn
  | faqDataEn
  | teamDataEn
  | testimonialDataEn
deriving DecidableEq, Repr

/-- The `en` row of `dataTranslations` in `src/config/translationData.json.ts`
(lines 16-25): the five data-keys mapped to the imported JSON modules. -/
def enDataTable : List (String × DataVal) :=
  [("siteData", .siteDataEn),
   ("navData", .navDataEn),
   ("faqData", .faqDataEn),
   ("teamData", .teamDataEn),
   ("testimonialData", .testimonialDataEn)]

/-- `dataTranslations` from `src/config/translationData.json.ts` (lines 16-25):
locale to data-key to value; the source object has the single locale `en`. -/
def dataTranslations : List (String × List (String × DataVal)) :=
  [("en", enDataTable)]

/-- `textTranslations` from `src/config/translationData.json.ts` (lines 42-51):
locale to string-key to display string; the source object has the single
locale `en`. -/
def textTranslations : List (String × List (String × String)) :=
  [("en",
    [("hero_text", "Everything you need for an amazing website."),
     ("hero_description",
      "A template for small business needs. Multiple pages and sections, blog, i18n, animations, CMS - all ready to go."),
     ("back_to_all_posts", "Back to all posts"),
     ("updated", "Updated")])]

/-- The data-keys requested by the site's `getTranslatedData` call sites
(the components and layouts request exactly the five keys of the tables). -/
def usedDataKeys : List String :=
  ["siteData", "navData", "faqData", "teamData", "testimonialData"]

/-- Lookup of a data-key in the row of one locale of a two-level translation
table; `none` when the locale has no row or the row lacks the key. -/
def tableLookup (table : List (String × List (String × DataVal)))
    (locale key : String) : Option DataVal :=
  match table.lookup locale with
  | some row => row.lookup key
  | none => none

/-- The single error class of the lookup layer (spec section 7): a requested
key resolves to nothing even after default-locale fallback. -/
inductive TranslationError where
  | MissingTranslationKey
deriving DecidableEq, Repr

/-- Modelled from the spec: `getTranslatedData` of `src/js/translationUtils.ts`
is not part of the repository snapshot (only its call sites are).  Spec
section 4.2: return the value for the key from the translation table of the
given locale; if that table lacks the key, fall back to the default locale's
value; if the key is absent even in the default locale, signal
`MissingTranslationKey` instead of returning an empty value. -/
def getTranslatedData (cfg : I18nConfig) (key locale : String) :
    Except TranslationError DataVal :=
  match tableLookup dataTranslations locale key with
  | some v => .ok v
  | none =>
    match tableLookup dataTranslations cfg.defaultLocale key with
    | some v => .ok v
    | none => .error .MissingTranslationKey

/-- The path segments of a URL path: the pieces between `/` separators, with
empty pieces dropped. -/
def pathSegs (path : String) : List String :=
  ((path.data.splitOn '/').filter (fun s => s ≠ [])).map String.mk

/-- Modelled from the spec: `getLocaleFromUrl` of `src/js/localeUtils.ts` is
not part of the repository snapshot (only its call sites are).  Spec
section 4.1: inspect the URL's path segments; if the first segment matches a
configured non-default locale, that is the active locale; otherwise the active
locale is the configured default. -/
def getLocaleFromUrl (cfg : I18nConfig) (path : String) : String :=
  match pathSegs path with
  | seg :: _ =>
    if seg ∈ cfg.locales ∧ seg ≠ cfg.defaultLocale then seg else cfg.defaultLocale
  | [] => cfg.defaultLocale

/-- A content-collection entry: an opaque data payload keyed by a string
identifier (spec section 6: an opaque list of identifier and data pairs). -/
structure ContentEntry (α : Type u) where
  id : String
  data : α
deriving DecidableEq, Repr

/-- The locale tag `<locale>/` that marks an identifier as belonging to a
locale, as a character list. -/
def locTag (locale : String) : List Char :=
  locale.data ++ ['/']

/-- Modelled from the spec: the per-entry decision of
`filterCollectionByLanguage` of `src/js/localeUtils.ts`, which is not part of
the repository snapshot (only its call sites are).  Spec section 4.3: an
identifier starting with `<locale>/` belongs to that locale and the tag is
stripped from the identifier; an identifier carrying the tag of a different
locale is excluded (for an unconfigured tag, from every locale's result); an
identifier with no tag belongs to the default locale and is kept unchanged. -/
def localeFilterStep (cfg : I18nConfig) (locale : String) (e : ContentEntry α) :
    Option (ContentEntry α) :=
  if (locTag locale).isPrefixOf e.id.data then
    some { e with id := String.mk (e.id.data.drop (locTag locale).length) }
  else if e.id.data.contains '/' then
    none
  else if locale = cfg.defaultLocale then
    some e
  else
    none

/-- Modelled from the spec: `filterCollectionByLanguage` of
`src/js/localeUtils.ts` (spec section 4.3): the filtered, tag-stripped subset
of the entries that belong to the target locale. -/
def filterCollectionByLanguage (cfg : I18nConfig)
    (entries : List (ContentEntry α)) (locale : String) :
    List (ContentEntry α) :=
  entries.filterMap (localeFilterStep cfg locale)

/-- One invocation of one of the three operations of the lookup layer. -/
inductive SiteOp (α : Type u) where
  | resolve (path : String)
  | lookupData (key : String) (locale : String)
  | filterEntries (entries : List (ContentEntry α)) (locale : String)

/-- The result of one invocation. -/
inductive SiteResult (α : Type u) where
  | locale (l : String)
  | dataResult (r : Except TranslationError DataVal)
  | entries (es : List (ContentEntry α))

/-- Interpretation of one invocation.  The three operations read only their
arguments and the `const` configuration tables; there is no mutable state for
a run to thread through. -/
def runOp (cfg : I18nConfig) : SiteOp α → SiteResult α
  | .resolve path => .locale (getLocaleFromUrl cfg path)
  | .lookupData key locale => .dataResult (getTranslatedData cfg key locale)
  | .filterEntries entries locale =>
    .entries (filterCollectionByLanguage cfg entries locale)

/-- A build run: a sequence of invocations, each interpreted independently. -/
def runOps (cfg : I18nConfig) (ops : List (SiteOp α)) : List (SiteResult α) :=
  ops.map (runOp cfg)

/-- C1: a data-key absent from the default locale's table makes
`getTranslatedData` at the default locale signal `MissingTranslationKey`,
never a silent empty value. -/
theorem getTranslatedData_missing_key_signals_error (key : String)
    (h : tableLookup dataTranslations collieryI18n.defaultLocale key = none) :
    getTranslatedData collieryI18n key collieryI18n.defaultLocale =
      .error .MissingTranslationKey := by
  unfold getTranslatedData
  rw [h]

/-- Witness for C1 at the concrete key `colorData`. -/
theorem getTranslatedData_missing_key_signals_error_witness :
    tableLookup dataTranslations collieryI18n.defaultLocale "colorData" = none ∧
    getTranslatedData collieryI18n "colorData" collieryI18n.defaultLocale =
      .error .MissingTranslationKey :=
  ⟨by decide, getTranslatedData_missing_key_signals_error "colorData" (by decide)⟩

/-- C2: for a configured locale and a data-key present in the default locale's
table, `getTranslatedData` returns a defined value: the locale's own value
when its table defines the key, and otherwise the default locale's value. -/
theorem getTranslatedData_fallback_defined (locale key : String) (v : DataVal)
    (hl : locale ∈ collieryI18n.locales)
    (hk : tableLookup dataTranslations collieryI18n.defaultLocale key = some v) :
    getTranslatedData collieryI18n key locale =
      .ok ((tableLookup dataTranslations locale key).getD v) := by
  unfold getTranslatedData
  cases h : tableLookup dataTranslations locale key <;> simp [h, hk]

/-- Witness for C2 at locale `en` and key `navData`. -/
theorem getTranslatedData_fallback_defined_witness :
    "en" ∈ collieryI18n.locales ∧
    tableLookup dataTranslations collieryI18n.defaultLocale "navData" =
      some .navDataEn ∧
    getTranslatedData collieryI18n "navData" "en" =
      .ok ((tableLookup dataTranslations "en" "navData").getD .navDataEn) :=
  ⟨by decide, by decide,
    getTranslatedData_fallback_defined "en" "navData" .navDataEn
      (by decide) (by decide)⟩

/-- C3: the resolver returns the first path segment exactly when that segment
is a configured non-default locale and the configured default otherwise; in
particular "/fr/blog/post" resolves to "fr" when "fr" is configured, and
"/blog/post" resolves to the default. -/
theorem getLocaleFromUrl_first_segment_rule :
    (∀ (cfg : I18nConfig) (path seg : String) (rest : List String),
      pathSegs path = seg :: rest →
      getLocaleFromUrl cfg path =
        if seg ∈ cfg.locales ∧ seg ≠ cfg.defaultLocale then seg
        else cfg.defaultLocale) ∧
    getLocaleFromUrl ⟨"en", ["en", "fr"]⟩ "/fr/blog/post" = "fr" ∧
    getLocaleFromUrl ⟨"en", ["en", "fr"]⟩ "/blog/post" = "en" := by
  refine ⟨fun cfg path seg rest h => ?_, by decide, by decide⟩
  unfold getLocaleFromUrl
  rw [h]

/-- Witness for C3 at the URL path "/fr/blog/post" under the deployed
configuration (where "fr" is not configured, so the default is returned). -/
theorem getLocaleFromUrl_first_segment_rule_witness :
    pathSegs "/fr/blog/post" = "fr" :: ["blog", "post"] ∧
    getLocaleFromUrl collieryI18n "/fr/blog/post" =
      (if "fr" ∈ collieryI18n.locales ∧ "fr" ≠ collieryI18n.defaultLocale
       then "fr" else collieryI18n.defaultLocale) :=
  ⟨by decide,
    getLocaleFromUrl_first_segment_rule.1 collieryI18n "/fr/blog/post" "fr"
      ["blog", "post"] (by decide)⟩

/-- C4: the resolver is total and never errors: for every URL path it returns
a member of the configured locale set, and a first segment that is not a
configured locale falls back to the configured default. -/
theorem getLocaleFromUrl_total (cfg : I18nConfig)
    (hd : cfg.defaultLocale ∈ cfg.locales) (path : String) :
    getLocaleFromUrl cfg path ∈ cfg.locales ∧
    (∀ seg rest, pathSegs path = seg :: rest → seg ∉ cfg.locales →
      getLocaleFromUrl cfg path = cfg.defaultLocale) := by
  constructor
  · unfold getLocaleFromUrl
    rcases hp : pathSegs path with _ | ⟨seg, rest⟩
    · exact hd
    · dsimp only
      by_cases hc : seg ∈ cfg.locales ∧ seg ≠ cfg.defaultLocale
      · rw [if_pos hc]
        exact hc.1
      · rw [if_neg hc]
        exact hd
  · intro seg rest h hseg
    unfold getLocaleFromUrl
    rw [h]
    dsimp only
    rw [if_neg]
    intro hc
    exact hseg hc.1

/-- Witness for C4 at the URL path "/xx/blog" under the deployed
configuration. -/
theorem getLocaleFromUrl_total_witness :
    collieryI18n.defaultLocale ∈ collieryI18n.locales ∧
    getLocaleFromUrl collieryI18n "/xx/blog" ∈ collieryI18n.locales :=
  ⟨by decide, (getLocaleFromUrl_total collieryI18n (by decide) "/xx/blog").1⟩

/-- C5: filtering returns exactly the entries tagged with the target locale,
tags stripped, plus, when the target is the default locale, the untagged
entries; every other entry is excluded, and in particular filtering to "fr"
excludes untagged entries and entries tagged with another locale. -/
theorem filterCollectionByLanguage_partition :
    (∀ (α : Type u) (cfg : I18nConfig) (locale : String)
        (entries : List (ContentEntry α)), locale ∈ cfg.locales →
      filterCollectionByLanguage cfg entries locale =
        entries.filterMap (fun e =>
          if (locTag locale).isPrefixOf e.id.data then
            some { e with id := String.mk (e.id.data.drop (locTag locale).length) }
          else if locale = cfg.defaultLocale ∧ ¬e.id.data.contains '/' then
            some e
          else none)) ∧
    filterCollectionByLanguage ⟨"en", ["en", "fr"]⟩
      ([⟨"en/a", 0⟩, ⟨"my-post", 1⟩, ⟨"fr/b", 2⟩, ⟨"de/c", 3⟩] :
        List (ContentEntry Nat)) "fr" = [⟨"b", 2⟩] := by
  constructor
  · intro α cfg locale entries hl
    unfold filterCollectionByLanguage
    congr 1
    funext e
    unfold localeFilterStep
    by_cases h1 : (locTag locale).isPrefixOf e.id.data
    · rw [if_pos h1, if_pos h1]
    · rw [if_neg h1, if_neg h1]
      by_cases h2 : e.id.data.contains '/'
      · rw [if_pos h2, if_neg]
        intro hc
        exact hc.2 h2
      · rw [if_neg h2]
        by_cases h3 : locale = cfg.defaultLocale
        · rw [if_pos h3, if_pos ⟨h3, h2⟩]
        · rw [if_neg h3, if_neg]
          intro hc
          exact h3 hc.1
  · decide

/-- Witness for C5 at the deployed configuration, locale "en" and a two-entry
collection. -/
theorem filterCollectionByLanguage_partition_witness :
    filterCollectionByLanguage collieryI18n
      ([⟨"en/a", 0⟩, ⟨"plain", 1⟩] : List (ContentEntry Nat)) "en" =
      ([⟨"en/a", 0⟩, ⟨"plain", 1⟩] : List (ContentEntry Nat)).filterMap (fun e =>
        if (locTag "en").isPrefixOf e.id.data then
          some { e with id := String.mk (e.id.data.drop (locTag "en").length) }
        else if "en" = collieryI18n.defaultLocale ∧ ¬e.id.data.contains '/' then
          some e
        else none) :=
  filterCollectionByLanguage_partition.1 Nat collieryI18n "en"
    [⟨"en/a", 0⟩, ⟨"plain", 1⟩] (by decide)

/-- Two locale tags over slash-free codes that open the same character list
are equal: if `l₁ ++ ['/']` begins `l₂ ++ '/' :: r` and neither code contains
a slash, the codes coincide. -/
theorem tag_inj : ∀ (l₁ l₂ r : List Char), '/' ∉ l₁ → '/' ∉ l₂ →
    (l₁ ++ ['/']) <+: (l₂ ++ '/' :: r) → l₁ = l₂ := by
  intro l₁
  induction l₁ with
  | nil =>
    intro l₂ r h1 h2 hp
    cases l₂ with
    | nil => rfl
    | cons b t =>
      exfalso
      rw [List.nil_append, List.cons_append] at hp
      have hb := (List.cons_prefix_cons.mp hp).1
      exact h2 (by rw [hb]; exact List.mem_cons_self b t)
  | cons a t ih =>
    intro l₂ r h1 h2 hp
    cases l₂ with
    | nil =>
      exfalso
      rw [List.cons_append, List.nil_append] at hp
      have ha := (List.cons_prefix_cons.mp hp).1
      exact h1 (by rw [← ha]; exact List.mem_cons_self a t)
    | cons b t₂ =>
      rw [List.cons_append, List.cons_append] at hp
      obtain ⟨hab, hp'⟩ := List.cons_prefix_cons.mp hp
      have ht : t = t₂ :=
        ih t₂ r (fun hm => h1 (List.mem_cons_of_mem a hm))
          (fun hm => h2 (List.mem_cons_of_mem b hm)) hp'
      rw [hab, ht]

/-- C6: an entry whose identifier carries the tag of a locale that is not in
the configured locale set is excluded from every configured locale's filtered
result: its step yields nothing, and removing it from the input leaves the
output unchanged. -/
theorem filterCollectionByLanguage_unconfigured_tag_excluded
    (cfg : I18nConfig) (locale : String) (e : ContentEntry α)
    (hl : locale ∈ cfg.locales) (hls : '/' ∉ locale.data)
    (p r : String) (hps : '/' ∉ p.data) (hpc : p ∉ cfg.locales)
    (hid : e.id.data = p.data ++ '/' :: r.data)
    (pre post : List (ContentEntry α)) :
    localeFilterStep cfg locale e = none ∧
    filterCollectionByLanguage cfg (pre ++ e :: post) locale =
      filterCollectionByLanguage cfg (pre ++ post) locale := by
  have htag : ¬(locTag locale).isPrefixOf e.id.data = true := by
    intro hb
    have hpre := List.isPrefixOf_iff_prefix.mp hb
    rw [hid] at hpre
    have hdl : locale.data = p.data := tag_inj locale.data p.data r.data hls hps hpre
    have hlp : locale = p := by
      cases locale
      cases p
      exact congrArg String.mk (by simpa using hdl)
    exact hpc (hlp ▸ hl)
  have hcont : e.id.data.contains '/' = true := by
    rw [hid]
    exact List.contains_iff_exists_mem_beq.mpr
      ⟨'/', List.mem_append_right _ (List.mem_cons_self _ _), by simp⟩
  have hstep : localeFilterStep cfg locale e = none := by
    unfold localeFilterStep
    rw [if_neg htag, if_pos hcont]
  refine ⟨hstep, ?_⟩
  unfold filterCollectionByLanguage
  simp [List.filterMap_append, List.filterMap_cons_none hstep]

/-- Witness for C6: the entry tagged "de/" contributes nothing to the "en"
result of the deployed configuration. -/
theorem filterCollectionByLanguage_unconfigured_tag_excluded_witness :
    localeFilterStep collieryI18n "en" (⟨"de/x", 0⟩ : ContentEntry Nat) = none ∧
    filterCollectionByLanguage collieryI18n
      ([⟨"en/a", 1⟩, ⟨"de/x", 0⟩, ⟨"b", 2⟩] : List (ContentEntry Nat)) "en" =
      filterCollectionByLanguage collieryI18n
        ([⟨"en/a", 1⟩, ⟨"b", 2⟩] : List (ContentEntry Nat)) "en" :=
  filterCollectionByLanguage_unconfigured_tag_excluded collieryI18n "en"
    ⟨"de/x", 0⟩ (by decide) (by decide) "de" "x" (by decide) (by decide)
    (by decide) [⟨"en/a", 1⟩] [⟨"b", 2⟩]

/-- C7 counterexample: re-filtering the filtered list strips a second "en/"
tag, so the operation as claimed is not idempotent. -/
theorem filterCollectionByLanguage_not_idempotent :
    ¬(filterCollectionByLanguage collieryI18n
        (filterCollectionByLanguage collieryI18n
          ([⟨"en/en/post", 0⟩] : List (ContentEntry Nat)) "en") "en" =
      filterCollectionByLanguage collieryI18n
        ([⟨"en/en/post", 0⟩] : List (ContentEntry Nat)) "en") := by
  decide

/-- An untagged entry is kept unchanged when filtering to the default
locale. -/
theorem localeFilterStep_keeps_untagged (cfg : I18nConfig) (locale : String)
    (e : ContentEntry α) (hd : locale = cfg.defaultLocale)
    (hc : e.id.data.contains '/' = false) :
    localeFilterStep cfg locale e = some e := by
  have htag : ¬(locTag locale).isPrefixOf e.id.data = true := by
    intro hb
    have hpre := List.isPrefixOf_iff_prefix.mp hb
    have hm : '/' ∈ e.id.data := hpre.subset (by simp [locTag])
    have := List.contains_iff_exists_mem_beq.mpr ⟨'/', hm, beq_self_eq_true '/'⟩
    rw [hc] at this
    cases this
  have hcc : ¬e.id.data.contains '/' = true := by
    intro hb2
    rw [hc] at hb2
    cases hb2
  unfold localeFilterStep
  rw [if_neg htag, if_neg hcc, if_pos hd]

/-- C7 amended: when the target locale is the default locale and no identifier
of the filtered output still contains a "/", re-filtering the output yields
that same output. -/
theorem filterCollectionByLanguage_idem_default (cfg : I18nConfig)
    (locale : String) (entries : List (ContentEntry α))
    (hdef : locale = cfg.defaultLocale)
    (hclean : ∀ e ∈ filterCollectionByLanguage cfg entries locale,
      e.id.data.contains '/' = false) :
    filterCollectionByLanguage cfg
      (filterCollectionByLanguage cfg entries locale) locale =
      filterCollectionByLanguage cfg entries locale := by
  have key : ∀ (l : List (ContentEntry α)),
      (∀ e ∈ l, e.id.data.contains '/' = false) →
      List.filterMap (localeFilterStep cfg locale) l = l := by
    intro l
    induction l with
    | nil => intro _; rfl
    | cons e t ih =>
      intro h
      rw [List.filterMap_cons_some
          (localeFilterStep_keeps_untagged cfg locale e hdef
            (h e (List.mem_cons_self e t))),
        ih (fun x hx => h x (List.mem_cons_of_mem e hx))]
  exact key _ hclean

/-- Witness for C7 amended: a collection whose output identifiers are
slash-free is a fixed point of a second filtering. -/
theorem filterCollectionByLanguage_idem_default_witness :
    filterCollectionByLanguage collieryI18n
      (filterCollectionByLanguage collieryI18n
        ([⟨"en/post", 0⟩, ⟨"plain", 1⟩] : List (ContentEntry Nat)) "en") "en" =
      filterCollectionByLanguage collieryI18n
        ([⟨"en/post", 0⟩, ⟨"plain", 1⟩] : List (ContentEntry Nat)) "en" :=
  filterCollectionByLanguage_idem_default collieryI18n "en"
    [⟨"en/post", 0⟩, ⟨"plain", 1⟩] (by decide) (by decide)

/-- C8: a build run interprets every invocation independently of the rest of
the run: the run splits around any invocation, the result at an invocation's
position is a function of that invocation alone, and the same operation gives
the same result in any two runs, whatever precedes or follows it. -/
theorem runOps_call_order_independent (cfg : I18nConfig)
    (pre post pre₂ post₂ : List (SiteOp α)) (op : SiteOp α) :
    runOps cfg (pre ++ op :: post) =
      runOps cfg pre ++ runOp cfg op :: runOps cfg post ∧
    (runOps cfg (pre ++ op :: post))[pre.length]? = some (runOp cfg op) ∧
    (runOps cfg (pre ++ op :: post))[pre.length]? =
      (runOps cfg (pre₂ ++ op :: post₂))[pre₂.length]? := by
  have hget : ∀ (l₁ l₂ : List (SiteOp α)),
      (runOps cfg (l₁ ++ op :: l₂))[l₁.length]? = some (runOp cfg op) := by
    intro l₁ l₂
    have hlen : (runOps cfg l₁).length = l₁.length := by
      simp [runOps]
    rw [show runOps cfg (l₁ ++ op :: l₂) =
        runOps cfg l₁ ++ runOp cfg op :: runOps cfg l₂ by simp [runOps]]
    rw [List.getElem?_append_right (le_of_eq hlen)]
    simp [hlen]
  refine ⟨by simp [runOps], hget pre post, ?_⟩
  rw [hget pre post, hget pre₂ post₂]

/-- C9: every locale present in `dataTranslations` defines every data-key the
site uses, and the default locale's table defines all of them, so it can serve
as the fallback source of truth. -/
theorem dataTranslations_complete :
    (∀ p ∈ dataTranslations, ∀ k ∈ usedDataKeys, (p.2.lookup k).isSome = true) ∧
    (∀ k ∈ usedDataKeys,
      (tableLookup dataTranslations collieryI18n.defaultLocale k).isSome = true) := by
  decide

/-- Witness for C9 at the locale row "en" and the keys "siteData" and
"navData". -/
theorem dataTranslations_complete_witness :
    ((("en", enDataTable) : String × List (String × DataVal)).2.lookup
      "siteData").isSome = true ∧
    (tableLookup dataTranslations collieryI18n.defaultLocale "navData").isSome =
      true :=
  ⟨dataTranslations_complete.1 ("en", enDataTable) (by decide) "siteData"
      (by decide),
    dataTranslations_complete.2 "navData" (by decide)⟩

/-- C10: the deployed configuration has exactly the locale set containing only
"en" with "en" as default, so every configured locale is the default, every
URL resolves to "en", and lookup at any configured locale coincides with
lookup at the default locale (fallback across locales is vacuous). -/
theorem collieryI18n_only_english :
    collieryI18n.locales = ["en"] ∧
    collieryI18n.defaultLocale = "en" ∧
    (∀ l ∈ collieryI18n.locales, l = collieryI18n.defaultLocale) ∧
    (∀ path, getLocaleFromUrl collieryI18n path = "en") ∧
    (∀ key l, l ∈ collieryI18n.locales →
      getTranslatedData collieryI18n key l =
        getTranslatedData collieryI18n key collieryI18n.defaultLocale) := by
  refine ⟨rfl, rfl, ?_, ?_, ?_⟩
  · intro l hl
    exact List.mem_singleton.mp hl
  · intro path
    unfold getLocaleFromUrl
    rcases hp : pathSegs path with _ | ⟨seg, rest⟩
    · rfl
    · dsimp only
      rw [if_neg (fun hc : seg ∈ collieryI18n.locales ∧ seg ≠ collieryI18n.defaultLocale =>
        hc.2 (List.mem_singleton.mp hc.1))]
      rfl
  · intro key l hl
    rw [List.mem_singleton.mp hl]
    rfl

/-- Witness for C10: "/fr/blog/post" resolves to "en" and lookup at the
configured locale "en" equals lookup at the default. -/
theorem collieryI18n_only_english_witness :
    getLocaleFromUrl collieryI18n "/fr/blog/post" = "en" ∧
    getTranslatedData collieryI18n "siteData" "en" =
      getTranslatedData collieryI18n "siteData" collieryI18n.defaultLocale :=
  ⟨collieryI18n_only_english.2.2.2.1 "/fr/blog/post",
    collieryI18n_only_english.2.2.2.2 "siteData" "en" (by decide)⟩

end Colliery
